import Mathlib

/-!
Formal verification of the vsco-get media acquisition pipeline
(`scraper/scraper.go`, `httpclient/httpclient.go`).

The repository concatenates several historical variants of the same
pipeline.  We refer to them as:

* variant A — offset pagination, `PageSize = 100` (`fetchImageList`,
  `fixUrl`, `getCorrectUrl`, the `path.Base` filename);
* variant B — offset pagination, `PageSize = 30`, `Media` with a server
  `_id` (`fetchMedia`, `getMediaUrl`, `SaveMediaToFile` with the
  `.mp4`/`.jpg` fallback, map-based `stripExistingMedia`, the
  `(bool, error)` `GetUserInfo` and its userlist driver);
* variant C — cursor pagination over `api/3.0` (`MediaWrapper` with a
  custom `UnmarshalJSON`, the `upload_date`-based `getMediaFilename`).

Strings are modelled by Lean `String` (a wrapper around `List Char`);
Go `int` fields are modelled by `Int`; fallible Go functions return
`Except String _`; a Go panic is modelled by `Option.none`.
External effects (HTTP responses, directory listings) are passed in
explicitly as values.
-/

/-! ## Basic string helpers (models of Go `strings` / `path` functions) -/

/-- Model of Go `strings.HasPrefix s p` on the byte/char sequence. -/
def strStartsWith (s p : String) : Bool :=
  s.data.take p.data.length == p.data

/-- First `n` characters of a string, model of the Go slice `s[:n]`
(the caller must know `n ≤ s.length`, otherwise Go panics). -/
def strTake (s : String) (n : Nat) : String :=
  String.mk (s.data.take n)

/-- Model of Go `path.Ext`: the suffix beginning at the final dot in the
final slash-separated element of the path; empty if there is no dot. -/
def charsExt (cs : List Char) : List Char :=
  let seg := cs.reverse.takeWhile (fun c => c != '/')
  if seg.contains '.' then '.' :: (seg.takeWhile (fun c => c != '.')).reverse else []

/-- `path.Ext` on `String`. -/
def pathExtStr (s : String) : String :=
  String.mk (charsExt s.data)

/-- Model of Go `strings.TrimSuffix(name, path.Ext(name))`: the name with
its extension (as computed by `path.Ext`) removed. -/
def trimExtStr (s : String) : String :=
  String.mk (s.data.take (s.data.length - (charsExt s.data).length))

/-- Helper for the model of `net/url.Parse`: drop everything up to and
including the first `"://"`; `none` when no scheme separator occurs. -/
def afterSchemeSep : List Char → Option (List Char)
  | [] => none
  | ':' :: '/' :: '/' :: rest => some rest
  | _ :: rest => afterSchemeSep rest

/-- Modelled from the stdlib contract of `net/url.Parse(u).Path` for the
URL shapes this program produces: for `scheme://host/path[?query]` the
path starts at the first slash after the host; for a scheme-less string
the whole string (up to a query/fragment) is the path. -/
def urlPathChars (cs : List Char) : List Char :=
  let afterHost :=
    match afterSchemeSep cs with
    | some rest => rest.dropWhile (fun c => c != '/')
    | none => cs
  afterHost.takeWhile (fun c => c != '?' && c != '#')

/-- `net/url.Parse(u).Path` on `String`. -/
def urlPath (s : String) : String :=
  String.mk (urlPathChars s.data)

/-- An ASCII control character, which `net/url.Parse` rejects anywhere
in a URL. -/
def isCtlChar (c : Char) : Bool :=
  c.toNat < 32 || c.toNat == 127

/-- A hexadecimal digit, as accepted by `net/url`'s escape parser. -/
def isHexDigit (c : Char) : Bool :=
  (48 ≤ c.toNat && c.toNat ≤ 57) || (97 ≤ c.toNat && c.toNat ≤ 102) ||
    (65 ≤ c.toNat && c.toNat ≤ 70)

/-- Percent-escape validation as in `net/url`'s unescaping of a parsed
path: every `%` must be followed by two hexadecimal digits. -/
def validEscapes : List Char → Bool
  | [] => true
  | '%' :: a :: b :: rest => isHexDigit a && isHexDigit b && validEscapes rest
  | '%' :: _ => false
  | _ :: rest => validEscapes rest

/-- Modelled from the stdlib contract of `net/url.Parse`: parsing fails
when the URL contains an ASCII control character or when its path
carries an invalid percent-escape (a `%` not followed by two hex
digits, e.g. `"%zz"`); otherwise parsing succeeds and exposes the
path. -/
def urlParse (s : String) : Except String String :=
  if s.data.any isCtlChar then
    Except.error ("net/url: invalid control character in URL")
  else if !(validEscapes (urlPathChars s.data)) then
    Except.error ("invalid URL escape")
  else Except.ok (urlPath s)

/-! ## Media data model -/

/-- `Media` of variants A and C (`scraper.go` lines 36-41 and 861-866). -/
structure Media where
  Is_video : Bool
  Video_url : String
  Responsive_url : String
  Upload_date : Int
deriving Repr, DecidableEq

/-- `Media` of variant B (`scraper.go` lines 329-336). -/
structure MediaB where
  ID : String
  Is_video : Bool
  Video_url : String
  Responsive_url : String
  Upload_date : Int
  Perma_subdomain : String
deriving Repr, DecidableEq

/-! ## URL selection and normalization -/

/-- `fixUrl` (`scraper.go` lines 122-127 and 974-979): prepend
`https://` unless the URL already starts with it. -/
def fixUrl (rawUrl : String) : String :=
  if strStartsWith rawUrl ("https://") then rawUrl
  else ("https://") ++ rawUrl

/-- `getCorrectUrl` (`scraper.go` lines 129-134 and 981-986): the video
URL when the video flag is set, the responsive URL otherwise. -/
def getCorrectUrl (media : Media) : String :=
  if media.Is_video then media.Video_url else media.Responsive_url

/-- The source URL as composed in `SaveMediaToFile` of variants A and C
(`scraper.go` lines 150-151 and 1005-1006): `fixUrl(getCorrectUrl(m))`. -/
def sourceUrlAC (media : Media) : String :=
  fixUrl (getCorrectUrl media)

/-- `getMediaUrl` of variant B (`scraper.go` lines 615-627). -/
def getMediaUrl (media : MediaB) : String :=
  if media.Is_video && media.Video_url != "" then
    if !(strStartsWith media.Video_url ("http")) then ("https://") ++ media.Video_url
    else media.Video_url
  else
    if !(strStartsWith media.Responsive_url ("http")) then ("https://") ++ media.Responsive_url
    else media.Responsive_url

/-! ## Filename derivation -/

/-- The extension inferred in variant B's `SaveMediaToFile`
(`scraper.go` lines 640-647): `path.Ext` of the parsed source URL's
path, with the `.mp4` / `.jpg` fallback when it is empty. -/
def fileExtB (media : MediaB) : String :=
  let e := pathExtStr (urlPath (getMediaUrl media))
  if e = "" then (if media.Is_video then (".mp4") else (".jpg")) else e

/-- The filename written by variant B's `SaveMediaToFile`
(`scraper.go` line 649): the server id plus the inferred extension. -/
def filenameB (media : MediaB) : String :=
  media.ID ++ fileExtB media

/-- Decimal digits of `n`, least significant first; the first argument
is structural fuel (`n` itself suffices since `n / 10 < n` for `n > 0`). -/
def natDigitsRevAux : Nat → Nat → List Char
  | 0, _ => []
  | fuel + 1, n =>
    if n = 0 then []
    else Char.ofNat (48 + n % 10) :: natDigitsRevAux fuel (n / 10)

/-- Decimal digits of a positive `n`, least significant first. -/
def natDigitsRev (n : Nat) : List Char :=
  natDigitsRevAux n n

/-- Model of Go `strconv.Itoa`. -/
def itoa (d : Int) : String :=
  if d = 0 then ("0")
  else if d < 0 then String.mk ('-' :: (natDigitsRev d.natAbs).reverse)
  else String.mk ((natDigitsRev d.natAbs).reverse)

/-- `getMediaFilename` of variant C (`scraper.go` lines 988-1001).  It
first parses the source URL and returns an error when `url.Parse`
fails (lines 991-994); only then does it take the first ten characters
of `strconv.Itoa(media.Upload_date)` — the Go slice `s[:10]` panics
when the rendered date is shorter than ten characters, modelled by
`none` — and appends the parsed path's extension.  So the outcome is
`none` for the panic, `some (Except.error _)` for the error return and
`some (Except.ok _)` for a filename. -/
def getMediaFilenameC (media : Media) : Option (Except String String) :=
  match urlParse (getCorrectUrl media) with
  | Except.error e =>
    some (Except.error (("Failed to parse image URL for media ") ++ media.Responsive_url
      ++ (": ") ++ e ++ ("\n")))
  | Except.ok parsedPath =>
    if (itoa media.Upload_date).length < 10 then none
    else some (Except.ok (strTake (itoa media.Upload_date) 10 ++ pathExtStr parsedPath))

/-! ## JSON model and the polymorphic entry decoder (variant C) -/

/-- A JSON value, as seen by `encoding/json` after parsing. -/
inductive Json where
  | null
  | bool (b : Bool)
  | num (n : Int)
  | str (s : String)
  | arr (elems : List Json)
  | obj (fields : List (String × Json))

/-- Object field lookup; as in a Go `map[string]json.RawMessage`, a later
duplicate key overwrites an earlier one. -/
def getField (fields : List (String × Json)) (key : String) : Option Json :=
  (fields.reverse.find? (fun p => p.1 == key)).map Prod.snd

/-- Decoding a JSON value into a Go `string` struct field: absent or
`null` leaves the zero value, a non-string is an unmarshal error. -/
def decodeStringField (fields : List (String × Json)) (key : String) : Except String String :=
  match getField fields key with
  | none => Except.ok ""
  | some Json.null => Except.ok ""
  | some (Json.str s) => Except.ok s
  | some _ => Except.error (("json: cannot unmarshal into string field ") ++ key)

/-- Decoding a JSON value into a Go `bool` struct field. -/
def decodeBoolField (fields : List (String × Json)) (key : String) : Except String Bool :=
  match getField fields key with
  | none => Except.ok false
  | some Json.null => Except.ok false
  | some (Json.bool b) => Except.ok b
  | some _ => Except.error (("json: cannot unmarshal into bool field ") ++ key)

/-- Decoding a JSON value into a Go `int` struct field. -/
def decodeIntField (fields : List (String × Json)) (key : String) : Except String Int :=
  match getField fields key with
  | none => Except.ok 0
  | some Json.null => Except.ok 0
  | some (Json.num n) => Except.ok n
  | some _ => Except.error (("json: cannot unmarshal into int field ") ++ key)

/-- `json.Unmarshal` into variant C's `Media` struct
(`scraper.go` lines 861-866): the value must be an object (or `null`,
which leaves the zero value); each field decodes with its zero-value
default when absent. -/
def decodeMedia : Json → Except String Media
  | Json.null => Except.ok ⟨false, "", "", 0⟩
  | Json.obj fields =>
    match decodeBoolField fields ("is_video") with
    | Except.error e => Except.error e
    | Except.ok iv =>
      match decodeStringField fields ("video_url") with
      | Except.error e => Except.error e
      | Except.ok vu =>
        match decodeStringField fields ("responsive_url") with
        | Except.error e => Except.error e
        | Except.ok ru =>
          match decodeIntField fields ("upload_date") with
          | Except.error e => Except.error e
          | Except.ok ud => Except.ok ⟨iv, vu, ru, ud⟩
  | _ => Except.error ("json: cannot unmarshal into Media")

/-- `MediaWrapper.UnmarshalJSON` (`scraper.go` lines 868-892): decode the
entry into a key-to-raw-message map, read the `type` discriminator
(an absent discriminator leaves the zero value `""`), then require the
object to contain a payload key equal to the discriminator and decode
the `Media` from it.  Returns the discriminator together with the media. -/
def decodeMediaWrapper : Json → Except String (String × Media)
  | Json.obj fields =>
    (match (match getField fields ("type") with
            | none => Except.ok ""
            | some Json.null => Except.ok ""
            | some (Json.str s) => Except.ok s
            | some _ => Except.error ("json: cannot unmarshal type into string")) with
     | Except.error e => Except.error e
     | Except.ok ty =>
       match getField fields ty with
       | none => Except.error (("Missing key matching media type: ") ++ ty)
       | some mediaJson =>
         match decodeMedia mediaJson with
         | Except.error e =>
           Except.error (("Failed to unmarshal media of type ") ++ ty ++ (": ") ++ e)
         | Except.ok m => Except.ok (ty, m))
  | _ => Except.error ("json: cannot unmarshal into map of raw messages")

/-- Decoding a JSON array of `MediaWrapper`s, as `encoding/json` does for
a `[]MediaWrapper` field: elements are decoded in order and an error
returned by an element's `UnmarshalJSON` aborts the whole decode. -/
def decodeWrapperList : List Json → Except String (List (String × Media))
  | [] => Except.ok []
  | j :: rest =>
    match decodeMediaWrapper j with
    | Except.error e => Except.error e
    | Except.ok w =>
      match decodeWrapperList rest with
      | Except.error e => Except.error e
      | Except.ok ws => Except.ok (w :: ws)

/-- The `media` field of variant C's `imageList` (`scraper.go` lines
850-854): absent or `null` gives the empty slice, an array decodes
element-wise, anything else is an unmarshal error. -/
def decodeMediaArray (fields : List (String × Json)) : Except String (List (String × Media)) :=
  match getField fields ("media") with
  | none => Except.ok []
  | some Json.null => Except.ok []
  | some (Json.arr entries) => decodeWrapperList entries
  | some _ => Except.error ("json: cannot unmarshal into media slice")

/-- `json.Unmarshal` into variant C's `imageList`
(`scraper.go` lines 850-854): media wrappers, total, next cursor. -/
def decodeImageListC (j : Json) : Except String (List (String × Media) × Int × String) :=
  match j with
  | Json.obj fields =>
    match decodeMediaArray fields with
    | Except.error e => Except.error e
    | Except.ok ws =>
      match decodeIntField fields ("total") with
      | Except.error e => Except.error e
      | Except.ok total =>
        match decodeStringField fields ("next_cursor") with
        | Except.error e => Except.error e
        | Except.ok cursor => Except.ok (ws, total, cursor)
  | _ => Except.error ("json: cannot unmarshal into imageList")

/-- One page response consumed by variant C's `fetchImageList`: either a
transport error or the page's JSON body. -/
structure PageC where
  body : Except String Json

/-- Whether a fallible computation failed. -/
def isErr {α : Type} : Except String α → Bool
  | Except.error _ => true
  | Except.ok _ => false

/-- Variant C's `fetchImageList` (`scraper.go` lines 939-971), driven by
the successive page responses the server returns: each page is decoded
into an `imageList` (a transport or decode error aborts the whole fetch
with an error), the wrapped media are appended in order, and the loop
ends when the returned cursor is empty. -/
def fetchImageListC : List PageC → Except String (List Media)
  | [] => Except.ok []
  | p :: rest =>
    match p.body with
    | Except.error e => Except.error e
    | Except.ok j =>
      match decodeImageListC j with
      | Except.error e => Except.error e
      | Except.ok (ws, _, cursor) =>
        if cursor = "" then Except.ok (ws.map Prod.snd)
        else
          match fetchImageListC rest with
          | Except.error e => Except.error e
          | Except.ok more => Except.ok (ws.map Prod.snd ++ more)

/-! ## Offset pagination (variants A and B) -/

/-- The page an offset-paginated API serving `T` items in a fixed order
returns for page index `p` and page size `N`: items `p*N` up to
`min((p+1)*N, T)`.  Items are represented by their catalog index. -/
def serverPage (N T p : Nat) : List Nat :=
  ((List.range T).drop (p * N)).take N

/-- The pagination skeleton shared by variant A's `fetchImageList`
(`scraper.go` lines 90-119) and variant B's `fetchMedia` (lines
573-613): request page 0, 1, ..., append each page's items, and stop as
soon as a page holds strictly fewer than `N` items.  The first `Nat`
argument is the next page index, the second is structural fuel (the Go
loop is unbounded; every theorem instantiates enough fuel).  Returns the
accumulated catalog together with the number of page requests issued. -/
def fetchOffsetLoop (N T : Nat) : Nat → Nat → Option (List Nat × Nat)
  | _, 0 => none
  | page, fuel + 1 =>
    if (serverPage N T page).length < N then some (serverPage N T page, 1)
    else
      match fetchOffsetLoop N T (page + 1) fuel with
      | none => none
      | some (rest, r) => some (serverPage N T page ++ rest, r + 1)

/-- The offset-style catalog fetch against a server holding `T` items,
started at page 0 with sufficient fuel. -/
def fetchImageListA (N T : Nat) : Option (List Nat × Nat) :=
  fetchOffsetLoop N T 0 (T / N + 1)

/-! ## The bounded download pool -/

/-- The observable outcome of `SaveAllMedia`'s download loop
(`scraper.go` lines 693-711 in variant B, 231-247 in variant A): every
item is handed to `SaveMediaToFile`; a failed save is only logged; after
`wg.Wait()` the function returns `nil`.  Individual saves are mutually
independent, so the multiset of completions and the return value do not
depend on the interleaving; this model collects them in submission
order.  `save` gives each item's outcome (`true` = saved).  The result
is the list of per-item executions and the function's returned error. -/
def saveAllMediaPool (save : MediaB → Bool) : List MediaB → List (MediaB × Bool) × Option String
  | [] => ([], none)
  | m :: rest =>
    let r := saveAllMediaPool save rest
    ((m, save m) :: r.1, r.2)

/-- State of the download pool: items the spawning loop has not yet
admitted, tasks currently holding one of the `numWorkers` semaphore
slots (`sem <- 1` … deferred `<-sem`), and finished tasks with their
outcome (`true` = save succeeded). -/
structure PoolState where
  pending : List Nat
  running : List Nat
  done : List (Nat × Bool)
deriving Repr, DecidableEq

/-- The concurrency discipline of `SaveAllMedia` (`scraper.go` lines
226-249 and 688-710) as a step relation.  `acquire` models the spawning
loop sending on the semaphore channel of capacity `W` — enabled only
while fewer than `W` tasks hold a slot — and spawning the goroutine;
`release` models a running task finishing its save with either outcome
and executing its deferred `<-sem; wg.Done()`. -/
inductive PoolStep (W : Nat) : PoolState → PoolState → Prop
  | acquire (m : Nat) (rest running : List Nat) (done : List (Nat × Bool)) :
      running.length < W →
      PoolStep W ⟨m :: rest, running, done⟩ ⟨rest, running ++ [m], done⟩
  | release (pending : List Nat) (pre post : List Nat) (m : Nat) (ok : Bool)
      (done : List (Nat × Bool)) :
      PoolStep W ⟨pending, pre ++ m :: post, done⟩ ⟨pending, pre ++ post, done ++ [(m, ok)]⟩

/-- Reachability from the initial pool state for a batch of items. -/
def PoolReach (W : Nat) (items : List Nat) (s : PoolState) : Prop :=
  Relation.ReflTransGen (PoolStep W) ⟨items, [], []⟩ s

/-! ## Local state filter (variant B) -/

/-- A directory entry as returned by `os.ReadDir`. -/
structure DirEntry where
  name : String
  isDir : Bool
deriving Repr, DecidableEq

/-- The identity stems contributed by one directory listing: the names
of the non-directory entries with their extension stripped
(`scraper.go` lines 746-752 and 758-764). -/
def entryStems (entries : List DirEntry) : List String :=
  (entries.filter (fun e => !e.isDir)).map (fun e => trimExtStr e.name)

/-- The `existingFiles` set built by variant B's `stripExistingMedia`
(`scraper.go` lines 741-765) from the destination directory and its
`profile` subdirectory.  A listing is `none` when `os.ReadDir` failed
(e.g. the directory does not exist), in which case it contributes
nothing. -/
def existingFiles (main profile : Option (List DirEntry)) : List String :=
  entryStems (main.getD []) ++ entryStems (profile.getD [])

/-- Variant B's `stripExistingMedia` (`scraper.go` lines 739-778): keep
exactly the media whose server id is not among the existing stems. -/
def stripExistingMediaB (mediaList : List MediaB) (main profile : Option (List DirEntry)) :
    List MediaB :=
  mediaList.filter (fun m => !((existingFiles main profile).contains m.ID))

/-- The spec's LocalInventory, stated independently of the loop that
builds it: the set of identity strings obtained from the non-directory
entries of the destination directory and of its profile subdirectory,
with extensions stripped. -/
def localInventory (main profile : Option (List DirEntry)) : Set String :=
  { s | ∃ e, (e ∈ main.getD [] ∨ e ∈ profile.getD []) ∧ e.isDir = false ∧ trimExtStr e.name = s }

/-! ## Identity resolution and the userlist driver (variant B) -/

/-- An ASCII whitespace character. -/
def isSpaceChar (c : Char) : Bool :=
  c == ' ' || c == '\t' || c == '\n' || c == '\r'

/-- Model of Go `strings.TrimSpace` (for the ASCII whitespace occurring
in username list files). -/
def strTrim (s : String) : String :=
  String.mk (((s.data.dropWhile isSpaceChar).reverse.dropWhile isSpaceChar).reverse)

/-- An HTTP response as consumed after `client.Get`: status code and
already-parsed JSON body. -/
structure HttpResp where
  status : Nat
  body : Json

/-- `json.Unmarshal` of one element of `sitesResponse.Sites`
(`scraper.go` lines 322-327): an object with an integer `id` and a
string `profile_image`, each defaulting to its zero value. -/
def decodeSite (j : Json) : Except String (Int × String) :=
  match j with
  | Json.null => Except.ok (0, "")
  | Json.obj fields =>
    match decodeIntField fields ("id") with
    | Except.error e => Except.error e
    | Except.ok siteId =>
      match decodeStringField fields ("profile_image") with
      | Except.error e => Except.error e
      | Except.ok img => Except.ok (siteId, img)
  | _ => Except.error ("json: cannot unmarshal into site")

/-- Element-wise decoding of the `sites` array. -/
def decodeSiteList : List Json → Except String (List (Int × String))
  | [] => Except.ok []
  | j :: rest =>
    match decodeSite j with
    | Except.error e => Except.error e
    | Except.ok s =>
      match decodeSiteList rest with
      | Except.error e => Except.error e
      | Except.ok ss => Except.ok (s :: ss)

/-- `json.Unmarshal` into `sitesResponse` (`scraper.go` lines 322-327):
the body must be an object; an absent or `null` `sites` field gives the
empty slice. -/
def decodeSitesResponse (j : Json) : Except String (List (Int × String)) :=
  match j with
  | Json.obj fields =>
    match getField fields ("sites") with
    | none => Except.ok []
    | some Json.null => Except.ok []
    | some (Json.arr sites) => decodeSiteList sites
    | some _ => Except.error ("json: cannot unmarshal into sites slice")
  | _ => Except.error ("json: cannot unmarshal into sitesResponse")

/-- Variant B's `GetUserInfo` (`scraper.go` lines 538-571) on a given
transport outcome.  `Except.ok none` is the distinct `(false, nil)`
"user not found, but not an error" outcome, produced for a 404 status
and for a well-formed response with zero matching sites; any other
non-200 status, a transport failure, or a decode failure is an error.
`Except.ok (some (id, img))` is the found case. -/
def getUserInfoB (resp : Except String HttpResp) : Except String (Option (Int × String)) :=
  match resp with
  | Except.error e => Except.error (("failed to make request: ") ++ e)
  | Except.ok r =>
    if r.status = 404 then Except.ok none
    else if r.status ≠ 200 then Except.error ("unexpected status code")
    else
      match decodeSitesResponse r.body with
      | Except.error e => Except.error (("failed to decode JSON: ") ++ e)
      | Except.ok [] => Except.ok none
      | Except.ok (s :: _) => Except.ok (some s)

/-- What the userlist driver records (logs) for one username. -/
inductive DispB where
  | infoError (e : String)
  | notFound
  | saved
  | saveFailed
  | picSaved
  | picFailed
deriving Repr, DecidableEq

/-- The handling of one username in variant B's `GetMediaFromUserlist`
(`scraper.go` lines 788-814): a resolution error is logged and the loop
continues; "not found" is logged and the loop continues; otherwise the
profile-picture or full-media save runs, its own failure also only
logged.  `resolve` maps a username to its transport outcome; `saveOk`
and `picOk` give the outcome of the respective save. -/
def userDisp (resolve : String → Except String HttpResp) (saveOk picOk : String → Bool)
    (getPics : Bool) (u : String) : DispB :=
  match getUserInfoB (resolve u) with
  | Except.error e => DispB.infoError e
  | Except.ok none => DispB.notFound
  | Except.ok (some _) =>
    if getPics then (if picOk u then DispB.picSaved else DispB.picFailed)
    else (if saveOk u then DispB.saved else DispB.saveFailed)

/-- Variant B's `GetMediaFromUserlist` (`scraper.go` lines 780-817):
scan the lines, trim each, skip blanks, handle every remaining username
in order — no outcome aborts the loop — and finally return the
scanner's error (`none` here: the file was read to the end).  The first
component is the sequence of per-username logged outcomes. -/
def processUserlist (resolve : String → Except String HttpResp) (saveOk picOk : String → Bool)
    (getPics : Bool) (lines : List String) : List (String × DispB) × Option String :=
  (((lines.map strTrim).filter (fun u => u != "")).map
      (fun u => (u, userDisp resolve saveOk picOk getPics u)),
   none)

/-! ## Transport download (httpclient) -/

/-- The externally visible effect of a `DownloadFile` call: the content
written to the destination path, if any, and the returned error. -/
structure DownloadOutcome where
  written : Option String
  err : Option String
deriving Repr, DecidableEq

/-- `DownloadFile` of `httpclient.go` lines 72-95, on a given transport
outcome (status code and full, already-decompressed body): a transport
error returns an error; a non-`http.StatusOK` status returns a "bad
status" error before the destination file is even created; otherwise the
full body is written to the path. -/
def DownloadFile (resp : Except String (Nat × String)) : DownloadOutcome :=
  match resp with
  | Except.error e => ⟨none, some (("download failed: ") ++ e)⟩
  | Except.ok (status, body) =>
    if status ≠ 200 then ⟨none, some ("bad status")⟩
    else ⟨some body, none⟩

/-- A well-formed catalog page body of variant C's endpoint: a `media`
array, a `total` count and a `next_cursor` token. -/
def mkPageJson (entries : List Json) (total : Int) (cursor : String) : Json :=
  Json.obj [(("media"), Json.arr entries), (("total"), Json.num total),
    (("next_cursor"), Json.str cursor)]

/-! # Helper lemmas -/

theorem charsExt_append_ext (stem tail : List Char) (hdot : '.' ∉ tail) (hsl : '/' ∉ tail) :
    charsExt (stem ++ '.' :: tail) = '.' :: tail := by
  have hrev : (stem ++ '.' :: tail).reverse = tail.reverse ++ '.' :: stem.reverse := by
    simp
  have hall : ∀ a ∈ tail.reverse, (a != '/') = true := by
    intro a ha
    rw [List.mem_reverse] at ha
    have : a ≠ '/' := fun h : a = '/' => hsl (h ▸ ha)
    simp [this]
  have hseg : (stem ++ '.' :: tail).reverse.takeWhile (fun c => c != '/') =
      tail.reverse ++ '.' :: (stem.reverse.takeWhile (fun c => c != '/')) := by
    rw [hrev, List.takeWhile_append_of_pos hall, List.takeWhile_cons_of_pos (by simp)]
  have halldot : ∀ a ∈ tail.reverse, (a != '.') = true := by
    intro a ha
    rw [List.mem_reverse] at ha
    have : a ≠ '.' := fun h : a = '.' => hdot (h ▸ ha)
    simp [this]
  unfold charsExt
  rw [hseg]
  have hcontains : (tail.reverse ++ '.' :: (stem.reverse.takeWhile (fun c => c != '/'))).contains '.' = true := by
    have : ('.' : Char) ∈ tail.reverse ++ '.' :: (stem.reverse.takeWhile (fun c => c != '/')) := by
      simp
    exact List.elem_eq_true_of_mem this
  rw [if_pos hcontains]
  rw [List.takeWhile_append_of_pos halldot, List.takeWhile_cons_of_neg (by simp)]
  simp

theorem trimExt_append_ext (stem tail : List Char) (hdot : '.' ∉ tail) (hsl : '/' ∉ tail) :
    trimExtStr (String.mk (stem ++ '.' :: tail)) = String.mk stem := by
  unfold trimExtStr
  rw [charsExt_append_ext stem tail hdot hsl]
  have hlen : (stem ++ '.' :: tail).length - ('.' :: tail).length = stem.length := by
    simp
  rw [hlen, List.take_left]

theorem charsExt_wf (cs : List Char) :
    charsExt cs = [] ∨ ∃ tail, charsExt cs = '.' :: tail ∧ '.' ∉ tail ∧ '/' ∉ tail := by
  unfold charsExt
  by_cases h : (cs.reverse.takeWhile (fun c => c != '/')).contains '.'
  · right
    refine ⟨((cs.reverse.takeWhile (fun c => c != '/')).takeWhile (fun c => c != '.')).reverse,
      by rw [if_pos h], ?_, ?_⟩
    · intro hmem
      rw [List.mem_reverse] at hmem
      have := List.mem_takeWhile_imp hmem
      simp at this
    · intro hmem
      rw [List.mem_reverse] at hmem
      have hmem2 : '/' ∈ cs.reverse.takeWhile (fun c => c != '/') :=
        List.takeWhile_subset _ hmem
      have := List.mem_takeWhile_imp hmem2
      simp at this
  · left
    rw [if_neg h]

theorem append_mk_data (s : String) (cs : List Char) : s ++ String.mk cs = String.mk (s.data ++ cs) :=
  rfl

theorem fileExtB_wf (m : MediaB) :
    ∃ tail, fileExtB m = String.mk ('.' :: tail) ∧ '.' ∉ tail ∧ '/' ∉ tail := by
  rcases charsExt_wf (urlPath (getMediaUrl m)).data with h | ⟨tail, h, hdot, hsl⟩
  · have he : pathExtStr (urlPath (getMediaUrl m)) = "" := by
      rw [pathExtStr, h]
    by_cases hv : m.Is_video
    · refine ⟨['m', 'p', '4'], ?_, by decide, by decide⟩
      simp only [fileExtB, he, hv]
      decide
    · refine ⟨['j', 'p', 'g'], ?_, by decide, by decide⟩
      simp only [fileExtB, he, Bool.not_eq_true] at hv ⊢
      simp only [hv]
      decide
  · refine ⟨tail, ?_, hdot, hsl⟩
    have he : pathExtStr (urlPath (getMediaUrl m)) = String.mk ('.' :: tail) := by
      rw [pathExtStr, h]
    have hne : pathExtStr (urlPath (getMediaUrl m)) ≠ "" := by
      rw [he]
      simp [String.ext_iff]
    simp only [fileExtB, if_neg hne]
    exact he

theorem trimExt_filenameB (m : MediaB) : trimExtStr (filenameB m) = m.ID := by
  obtain ⟨tail, hext, hdot, hsl⟩ := fileExtB_wf m
  have h1 : filenameB m = String.mk (m.ID.data ++ '.' :: tail) := by
    rw [filenameB, hext, append_mk_data]
  rw [h1, trimExt_append_ext _ _ hdot hsl]

/-! # Claim theorems -/

/-- C7 (confirmed): URL selection and normalization.  For every media
item the source URL composed by `SaveMediaToFile` is the (normalized)
video URL when the video flag is set and the (normalized)
responsive/image URL otherwise, and the normalization `fixUrl` prepends
`https://` exactly when the URL does not already start with it,
returning an already-prefixed URL unchanged. -/
theorem C7_source_url_selection_and_normalization (m : Media) (u : String) :
    (m.Is_video = true → sourceUrlAC m = fixUrl m.Video_url) ∧
    (m.Is_video = false → sourceUrlAC m = fixUrl m.Responsive_url) ∧
    (strStartsWith u ("https://") = true → fixUrl u = u) ∧
    (strStartsWith u ("https://") = false → fixUrl u = ("https://") ++ u) := by
  refine ⟨?_, ?_, ?_, ?_⟩
  · intro h
    simp [sourceUrlAC, getCorrectUrl, h]
  · intro h
    simp [sourceUrlAC, getCorrectUrl, h]
  · intro h
    simp [fixUrl, h]
  · intro h
    simp [fixUrl, h]

/-- C7 witness: the spec's concrete normalization scenario, by the
theorem applied to an image item holding `example.com/a.jpg`. -/
theorem C7_source_url_witness :
    sourceUrlAC ⟨false, "", "example.com/a.jpg", 0⟩ = ("https://example.com/a.jpg") ∧
    fixUrl ("https://example.com/a.jpg") = ("https://example.com/a.jpg") := by
  constructor
  · have h := (C7_source_url_selection_and_normalization ⟨false, "", "example.com/a.jpg", 0⟩
      ("example.com/a.jpg")).2.1 rfl
    rw [h]
    rfl
  · exact (C7_source_url_selection_and_normalization ⟨false, "", "", 0⟩
      ("https://example.com/a.jpg")).2.2.1 (by decide)

/-- C9 (confirmed): download-to-path error contract of
`httpclient.DownloadFile` (lines 72-95).  A response with any non-2xx
status (indeed any status other than `http.StatusOK`) yields an error
and no file content is written — in particular an error body is never
written as the file's content and success is never reported; a transport
failure likewise yields an error; a 200 response writes the full body. -/
theorem C9_download_error_contract (status : Nat) (body e : String) :
    (¬(200 ≤ status ∧ status < 300) →
      (DownloadFile (Except.ok (status, body))).written = none ∧
      (DownloadFile (Except.ok (status, body))).err ≠ none) ∧
    (DownloadFile (Except.ok (200, body)) = ⟨some body, none⟩) ∧
    ((DownloadFile (Except.error e)).written = none ∧ (DownloadFile (Except.error e)).err ≠ none) := by
  refine ⟨?_, by simp [DownloadFile], by simp [DownloadFile]⟩
  intro h
  have hne : status ≠ 200 := by
    intro heq
    exact h (by omega)
  simp [DownloadFile, hne]

/-- C9 witness: a 404 response is rejected with an error and nothing is
written, by the theorem at a concrete input. -/
theorem C9_download_witness :
    (DownloadFile (Except.ok (404, "not found page"))).written = none ∧
    (DownloadFile (Except.ok (404, "not found page"))).err ≠ none :=
  (C9_download_error_contract 404 ("not found page") ("")).1 (by omega)

theorem contains_eq_false_iff (l : List String) (s : String) :
    l.contains s = false ↔ s ∉ l := by
  rw [← Bool.not_eq_true, not_iff_not]
  exact List.elem_iff

theorem mem_existingFiles (main profile : Option (List DirEntry)) (s : String) :
    s ∈ existingFiles main profile ↔ s ∈ localInventory main profile := by
  simp only [existingFiles, entryStems, localInventory, List.mem_append, List.mem_map,
    List.mem_filter, Set.mem_setOf_eq, Bool.not_eq_true']
  constructor
  · rintro (⟨e, ⟨he, hd⟩, hs⟩ | ⟨e, ⟨he, hd⟩, hs⟩)
    · exact ⟨e, Or.inl he, hd, hs⟩
    · exact ⟨e, Or.inr he, hd, hs⟩
  · rintro ⟨e, he | he, hd, hs⟩
    · exact Or.inl ⟨e, ⟨he, hd⟩, hs⟩
    · exact Or.inr ⟨e, ⟨he, hd⟩, hs⟩

/-- C3 (corrected, amended part): in the download pool every submitted
item's save executes with its own outcome — a failure of one item never
prevents the execution of any sibling, and the pool drains the whole
batch — but the function's returned value is always `nil` and carries no
succeeded/failed counts. -/
theorem C3_pool_drains_but_returns_nil (save : MediaB → Bool) (items : List MediaB) :
    (saveAllMediaPool save items).1 = items.map (fun m => (m, save m)) ∧
    (saveAllMediaPool save items).2 = none := by
  induction items with
  | nil => exact ⟨rfl, rfl⟩
  | cons m rest ih =>
    exact ⟨by simp [saveAllMediaPool, ih.1], by simp [saveAllMediaPool, ih.2]⟩

/-- C3 counterexample: an all-failing batch of two items and an
all-succeeding batch of the same two items produce the *same* returned
batch result (`nil`), although they have two resp. zero failed saves —
so the returned result does not report the number of failed and
succeeded saves, refuting the claim's accounting part. -/
theorem C3_counterexample :
    (saveAllMediaPool (fun _ => false)
        [⟨"a", false, "", "im.vsco.co/u/a.jpg", 0, ""⟩,
         ⟨"b", false, "", "im.vsco.co/u/b.jpg", 0, ""⟩]).2 =
      (saveAllMediaPool (fun _ => true)
        [⟨"a", false, "", "im.vsco.co/u/a.jpg", 0, ""⟩,
         ⟨"b", false, "", "im.vsco.co/u/b.jpg", 0, ""⟩]).2 ∧
    ((saveAllMediaPool (fun _ => false)
        [⟨"a", false, "", "im.vsco.co/u/a.jpg", 0, ""⟩,
         ⟨"b", false, "", "im.vsco.co/u/b.jpg", 0, ""⟩]).1.countP (fun p => !p.2)) = 2 ∧
    ((saveAllMediaPool (fun _ => true)
        [⟨"a", false, "", "im.vsco.co/u/a.jpg", 0, ""⟩,
         ⟨"b", false, "", "im.vsco.co/u/b.jpg", 0, ""⟩]).1.countP (fun p => !p.2)) = 0 := by
  refine ⟨rfl, rfl, rfl⟩

/-- C5 (confirmed): dedup filter correctness and idempotence for variant
B's `stripExistingMedia`.  (a) The filter keeps exactly the catalog
items whose stable identity (server id) is absent from the local
inventory — the extension-stripped non-directory entries of the
destination directory and its profile subdirectory; (b) applying the
filter twice against an unmodified directory state yields the same
surviving list; (c) after a successful save of item `X` — which creates
the file `X.ID + inferred extension` in the destination directory — a
subsequent filter run excludes `X`. -/
theorem C5_dedup_filter (cat : List MediaB) (main profile : Option (List DirEntry))
    (mainEntries : List DirEntry) (X : MediaB) :
    (∀ m : MediaB, m ∈ stripExistingMediaB cat main profile ↔
      m ∈ cat ∧ m.ID ∉ localInventory main profile) ∧
    stripExistingMediaB (stripExistingMediaB cat main profile) main profile =
      stripExistingMediaB cat main profile ∧
    X ∉ stripExistingMediaB cat (some (mainEntries ++ [⟨filenameB X, false⟩])) profile := by
  refine ⟨?_, ?_, ?_⟩
  · intro m
    rw [stripExistingMediaB, List.mem_filter, Bool.not_eq_true', contains_eq_false_iff,
      mem_existingFiles]
  · simp only [stripExistingMediaB, List.filter_filter]
    congr 1
    funext m
    rw [Bool.and_self]
  · intro hX
    rw [stripExistingMediaB, List.mem_filter, Bool.not_eq_true', contains_eq_false_iff] at hX
    apply hX.2
    rw [existingFiles]
    apply List.mem_append_left
    rw [entryStems]
    apply List.mem_map.mpr
    refine ⟨⟨filenameB X, false⟩, ?_, trimExt_filenameB X⟩
    rw [List.mem_filter]
    exact ⟨by simp, rfl⟩

/-- C8 (confirmed): filename derivation of variant B's
`SaveMediaToFile`.  The derivation is a pure function of the item (hence
deterministic across repeated calls); the filename is the item's stable
identity (its server id) plus the inferred extension — the source URL
path's extension when nonempty, else `.mp4` for video and `.jpg` for
image items; and stripping the extension recovers exactly the stable
identity. -/
theorem C8_filename_derivation (m : MediaB) :
    filenameB m = filenameB m ∧
    (pathExtStr (urlPath (getMediaUrl m)) ≠ "" →
      filenameB m = m.ID ++ pathExtStr (urlPath (getMediaUrl m))) ∧
    (pathExtStr (urlPath (getMediaUrl m)) = "" → m.Is_video = true →
      filenameB m = m.ID ++ (".mp4")) ∧
    (pathExtStr (urlPath (getMediaUrl m)) = "" → m.Is_video = false →
      filenameB m = m.ID ++ (".jpg")) ∧
    trimExtStr (filenameB m) = m.ID := by
  refine ⟨rfl, ?_, ?_, ?_, trimExt_filenameB m⟩
  · intro h
    simp [filenameB, fileExtB, h]
  · intro h hv
    simp [filenameB, fileExtB, h, hv]
  · intro h hv
    simp [filenameB, fileExtB, h, hv]

/-- C8 witness: the theorem applied to a concrete image item whose URL
path carries a `.jpg` extension. -/
theorem C8_filename_witness :
    filenameB ⟨"5f0c2a", false, "", "im.vsco.co/u/photo.jpg", 0, ""⟩ = ("5f0c2a.jpg") := by
  rw [(C8_filename_derivation ⟨"5f0c2a", false, "", "im.vsco.co/u/photo.jpg", 0, ""⟩).2.1
    (by decide)]
  decide

/-- C4 (confirmed): identity resolution and batch isolation in variant
B.  A 200 response whose body decodes to zero matching sites yields the
distinct `(false, nil)` "not found" outcome, not an error; the userlist
driver records an outcome for every (nonblank) username — no outcome
aborts the run, whose final result is the scanner's `nil`; a username
resolving to "not found" is logged as such and the driver moves on; and
any status other than 200/404, or a decode failure, is a hard error for
that username only. -/
theorem C4_notfound_isolation (r : HttpResp) (resolve : String → Except String HttpResp)
    (saveOk picOk : String → Bool) (getPics : Bool) (lines : List String) :
    (r.status = 200 → decodeSitesResponse r.body = Except.ok [] →
      getUserInfoB (Except.ok r) = Except.ok none) ∧
    ((processUserlist resolve saveOk picOk getPics lines).1.length =
      ((lines.map strTrim).filter (fun u => u != "")).length ∧
     (processUserlist resolve saveOk picOk getPics lines).2 = none) ∧
    (∀ u, getUserInfoB (resolve u) = Except.ok none →
      userDisp resolve saveOk picOk getPics u = DispB.notFound) ∧
    (r.status ≠ 200 → r.status ≠ 404 →
      getUserInfoB (Except.ok r) = Except.error ("unexpected status code")) ∧
    (r.status = 200 → ∀ e, decodeSitesResponse r.body = Except.error e →
      getUserInfoB (Except.ok r) = Except.error (("failed to decode JSON: ") ++ e)) := by
  refine ⟨?_, ⟨by simp [processUserlist], rfl⟩, ?_, ?_, ?_⟩
  · intro h200 hdec
    simp [getUserInfoB, h200, hdec]
  · intro u hres
    simp [userDisp, hres]
  · intro hne200 hne404
    simp only [getUserInfoB, if_neg hne404, if_pos hne200]
  · intro h200 e hdec
    simp [getUserInfoB, h200, hdec]

/-- C4 witness: the theorem applied to a concrete 200 response with an
empty `sites` array and to a two-name userlist. -/
theorem C4_notfound_witness :
    getUserInfoB (Except.ok ⟨200, Json.obj [(("sites"), Json.arr [])]⟩) = Except.ok none ∧
    (processUserlist (fun _ => Except.ok ⟨200, Json.obj [(("sites"), Json.arr [])]⟩)
      (fun _ => true) (fun _ => true) false ["alice", "bob"]).1.length = 2 := by
  constructor
  · exact (C4_notfound_isolation ⟨200, Json.obj [(("sites"), Json.arr [])]⟩
      (fun _ => Except.ok ⟨200, Json.obj [(("sites"), Json.arr [])]⟩)
      (fun _ => true) (fun _ => true) false ["alice", "bob"]).1 rfl (by rfl)
  · rw [(C4_notfound_isolation ⟨200, Json.obj [(("sites"), Json.arr [])]⟩
      (fun _ => Except.ok ⟨200, Json.obj [(("sites"), Json.arr [])]⟩)
      (fun _ => true) (fun _ => true) false ["alice", "bob"]).2.1.1]
    rfl

/-- C6 (confirmed): bounded concurrency of the download pool.  In every
state reachable from the initial state of a batch, at most `W` tasks
hold one of the `W` semaphore slots — and since a save executes only
between its task's acquire and release, at no instant do more than `W`
saves execute concurrently; moreover the release transition (the
deferred `<-sem`) is available to a running task for either save
outcome, so each task frees its slot on completion regardless of
success or failure. -/
theorem C6_bounded_concurrency (W : Nat) (items : List Nat) (s : PoolState)
    (h : PoolReach W items s) :
    s.running.length ≤ W ∧
    (∀ (pending pre post : List Nat) (m : Nat) (done : List (Nat × Bool)),
      PoolStep W ⟨pending, pre ++ m :: post, done⟩ ⟨pending, pre ++ post, done ++ [(m, true)]⟩ ∧
      PoolStep W ⟨pending, pre ++ m :: post, done⟩ ⟨pending, pre ++ post, done ++ [(m, false)]⟩) := by
  constructor
  · induction h with
    | refl => simp
    | tail hreach hstep ih =>
      cases hstep with
      | acquire m rest running done hlt => simpa using hlt
      | release pending pre post m ok done =>
        simp only [List.length_append, List.length_cons] at ih ⊢
        omega
  · intro pending pre post m done
    exact ⟨PoolStep.release pending pre post m true done,
      PoolStep.release pending pre post m false done⟩

/-- C6 witness: a complete concrete schedule of a two-item batch with a
single worker, with the bound instantiated by the theorem at its final
state. -/
theorem C6_bounded_witness :
    PoolReach 1 [0, 1] ⟨[], [], [(0, true), (1, false)]⟩ ∧
    (PoolState.mk [] [] [(0, true), (1, false)]).running.length ≤ 1 := by
  have t1 : PoolStep 1 ⟨[0, 1], [], []⟩ ⟨[1], [0], []⟩ :=
    PoolStep.acquire 0 [1] [] [] (by simp)
  have t2 : PoolStep 1 ⟨[1], [0], []⟩ ⟨[1], [], [(0, true)]⟩ :=
    PoolStep.release [1] [] [] 0 true []
  have t3 : PoolStep 1 ⟨[1], [], [(0, true)]⟩ ⟨[], [1], [(0, true)]⟩ :=
    PoolStep.acquire 1 [] [] [(0, true)] (by simp)
  have t4 : PoolStep 1 ⟨[], [1], [(0, true)]⟩ ⟨[], [], [(0, true), (1, false)]⟩ :=
    PoolStep.release [] [] [] 1 false [(0, true)]
  have hfinal : PoolReach 1 [0, 1] ⟨[], [], [(0, true), (1, false)]⟩ :=
    Relation.ReflTransGen.tail (Relation.ReflTransGen.tail (Relation.ReflTransGen.tail
      (Relation.ReflTransGen.single t1) t2) t3) t4
  exact ⟨hfinal, (C6_bounded_concurrency 1 [0, 1] _ hfinal).1⟩

theorem serverPage_len (N T p : Nat) : (serverPage N T p).length = min N (T - p * N) := by
  simp [serverPage]

theorem serverPage_full (N T p : Nat) (h : p * N + N ≤ T) : (serverPage N T p).length = N := by
  rw [serverPage_len]
  exact Nat.min_eq_left (Nat.le_sub_of_add_le (by rw [Nat.add_comm]; exact h))

theorem sub_div_mul_eq_mod (N T : Nat) : T - T / N * N = T % N := by
  have h2 := Nat.div_add_mod T N
  apply Nat.sub_eq_of_eq_add
  rw [Nat.mul_comm] at h2
  rw [Nat.add_comm] at h2
  exact h2.symm

theorem serverPage_last_short (N T : Nat) (hN : 0 < N) :
    (serverPage N T (T / N)).length < N := by
  rw [serverPage_len, sub_div_mul_eq_mod]
  have h4 : T % N < N := Nat.mod_lt T hN
  calc min N (T % N) ≤ T % N := Nat.min_le_right N (T % N)
    _ < N := h4

theorem serverPage_last_eq (N T : Nat) (hN : 0 < N) :
    serverPage N T (T / N) = (List.range T).drop (T / N * N) := by
  rw [serverPage]
  apply List.take_of_length_le
  rw [List.length_drop, List.length_range, sub_div_mul_eq_mod]
  exact Nat.le_of_lt (Nat.mod_lt T hN)

theorem fetchOffsetLoop_last (N T fuel : Nat) (hN : 0 < N) :
    fetchOffsetLoop N T (T / N) (fuel + 1) = some ((List.range T).drop (T / N * N), 1) := by
  rw [fetchOffsetLoop]
  rw [if_pos (serverPage_last_short N T hN), serverPage_last_eq N T hN]

theorem fetchOffsetLoop_spec (N T : Nat) (hN : 0 < N) :
    ∀ fuel page, page ≤ T / N → T / N ≤ page + fuel →
      fetchOffsetLoop N T page (fuel + 1) =
        some ((List.range T).drop (page * N), T / N + 1 - page) := by
  have harith1 : ∀ q : Nat, q + 1 - q = 1 := fun q => by omega
  intro fuel
  induction fuel with
  | zero =>
    intro page h1 h2
    have hp : page = T / N := Nat.le_antisymm h1 (by simpa using h2)
    subst hp
    rw [fetchOffsetLoop_last N T 0 hN, harith1]
  | succ fuel ih =>
    intro page h1 h2
    by_cases hp : page = T / N
    · subst hp
      rw [fetchOffsetLoop_last N T (fuel + 1) hN, harith1]
    · have hlt : page < T / N := Nat.lt_of_le_of_ne h1 hp
      have hfull : (serverPage N T page).length = N := by
        apply serverPage_full
        have hstep : page * N + N = (page + 1) * N := (Nat.succ_mul page N).symm
        rw [hstep]
        calc (page + 1) * N ≤ T / N * N := Nat.mul_le_mul_right N hlt
          _ ≤ T := Nat.div_mul_le_self T N
      have h1' : page + 1 ≤ T / N := hlt
      have h2' : T / N ≤ page + 1 + fuel := by
        have : ∀ q : Nat, q ≤ page + (fuel + 1) → q ≤ page + 1 + fuel := fun q h => by omega
        exact this (T / N) h2
      rw [fetchOffsetLoop]
      rw [if_neg (by rw [hfull]; exact Nat.lt_irrefl N)]
      rw [ih (page + 1) h1' h2']
      have hsplit : serverPage N T page ++ (List.range T).drop ((page + 1) * N) =
          (List.range T).drop (page * N) := by
        rw [serverPage, Nat.succ_mul]
        rw [← List.drop_drop]
        exact List.take_append_drop N ((List.range T).drop (page * N))
      have harith2 : T / N + 1 - (page + 1) + 1 = T / N + 1 - page := by
        have : ∀ q : Nat, page < q → q + 1 - (page + 1) + 1 = q + 1 - page := fun q h => by omega
        exact this (T / N) hlt
      simp only [hsplit, harith2]

/-- C2 (corrected, amended part): total-preserving pagination of the
offset-style fetch loop against an API serving `T` items with page size
`N > 0`.  The loop terminates, issues exactly `T / N + 1` page requests
(one more than `⌈T/N⌉` whenever `N` divides `T`, including `T = 0`),
the reassembled catalog is the in-order concatenation of all pages with
length `T`, and the loop stops exactly at the first page holding
strictly fewer than `N` items: every earlier page is full. -/
theorem C2_total_preserving_pagination (N T : Nat) (hN : 0 < N) :
    fetchImageListA N T = some (List.range T, T / N + 1) ∧
    (List.range T).length = T ∧
    (serverPage N T (T / N)).length < N ∧
    (∀ p, p < T / N → (serverPage N T p).length = N) := by
  refine ⟨?_, by simp, serverPage_last_short N T hN, ?_⟩
  · rw [fetchImageListA]
    rw [fetchOffsetLoop_spec N T hN (T / N) 0 (Nat.zero_le _) (by simp)]
    simp
  · intro p hp
    apply serverPage_full
    have hstep : p * N + N = (p + 1) * N := (Nat.succ_mul p N).symm
    rw [hstep]
    calc (p + 1) * N ≤ T / N * N := Nat.mul_le_mul_right N hp
      _ ≤ T := Nat.div_mul_le_self T N

/-- C2 counterexample: for page size 2 and 4 served items the loop
issues 3 page requests (pages of 2, 2 and 0 items), not
`⌈4/2⌉ = 2` as the claim states. -/
theorem C2_counterexample :
    fetchImageListA 2 4 = some (List.range 4, 3) ∧ (4 + 2 - 1) / 2 = 2 ∧ (3 : Nat) ≠ 2 := by
  refine ⟨by decide, by decide, by decide⟩

/-- C2 witness: the amended theorem at page size 3 and 7 items
(3 requests, catalog of length 7). -/
theorem C2_pagination_witness :
    fetchImageListA 3 7 = some (List.range 7, 7 / 3 + 1) :=
  (C2_total_preserving_pagination 3 7 (by decide)).1

theorem natDigitsRevAux_length (fuel : Nat) :
    ∀ n k, n < 10 ^ k → (natDigitsRevAux fuel n).length ≤ k := by
  induction fuel with
  | zero =>
    intro n k _
    simp [natDigitsRevAux]
  | succ fuel ih =>
    intro n k h
    by_cases hn : n = 0
    · simp [natDigitsRevAux, hn]
    · rw [natDigitsRevAux, if_neg hn]
      cases k with
      | zero =>
        exact absurd (Nat.lt_one_iff.mp (by simpa using h)) hn
      | succ k =>
        simp only [List.length_cons]
        have hdiv : n / 10 < 10 ^ k := by
          rw [Nat.div_lt_iff_lt_mul (by omega)]
          calc n < 10 ^ (k + 1) := h
            _ = 10 ^ k * 10 := by rw [Nat.pow_succ]
        have := ih (n / 10) k hdiv
        omega

theorem itoa_length_lt_ten (d : Int) (h0 : 0 ≤ d) (h : d < 1000000000) :
    (itoa d).length < 10 := by
  by_cases hz : d = 0
  · subst hz
    decide
  · have hneg : ¬ d < 0 := by omega
    rw [itoa, if_neg hz, if_neg hneg]
    have habs : d.natAbs < 1000000000 := by omega
    have h9 : (10 : Nat) ^ 9 = 1000000000 := by norm_num
    have hlen := natDigitsRevAux_length d.natAbs d.natAbs 9 (by rw [h9]; exact habs)
    simp only [String.length, natDigitsRev, List.length_reverse]
    omega

/-- C10 (corrected, amended part): variant C's cursor-era filename
derivation first propagates a `url.Parse` failure of the source URL as
an ordinary error return — no panic, whatever `Upload_date` holds —
and when the URL parses, it panics for every media item whose
`Upload_date` is nonnegative and below `1000000000` (fewer than ten
decimal digits, including the zero default used when the JSON field is
absent): the Go slice `Itoa(Upload_date)[:10]` is out of range, so the
function panics instead of returning a filename or an error. -/
theorem C10_small_upload_date_panics (m : Media) :
    (∀ p, urlParse (getCorrectUrl m) = Except.ok p →
      0 ≤ m.Upload_date → m.Upload_date < 1000000000 → getMediaFilenameC m = none) ∧
    (∀ e, urlParse (getCorrectUrl m) = Except.error e →
      getMediaFilenameC m = some (Except.error (("Failed to parse image URL for media ")
        ++ m.Responsive_url ++ (": ") ++ e ++ ("\n")))) := by
  constructor
  · intro p hp h0 h
    simp only [getMediaFilenameC, hp]
    rw [if_pos (itoa_length_lt_ten m.Upload_date h0 h)]
  · intro e he
    simp only [getMediaFilenameC, he]

/-- C10 witness: the amended theorem at the zero default upload date
with a parseable URL (panic), and at an item whose URL carries the
invalid escape `%zz` (error return, no panic). -/
theorem C10_panic_witness :
    getMediaFilenameC ⟨false, "", "im.vsco.co/u/x.jpg", 0⟩ = none ∧
    getMediaFilenameC ⟨false, "", "%zz", 0⟩ =
      some (Except.error ("Failed to parse image URL for media %zz: invalid URL escape\n")) := by
  constructor
  · exact (C10_small_upload_date_panics ⟨false, "", "im.vsco.co/u/x.jpg", 0⟩).1
      ("im.vsco.co/u/x.jpg") (by rfl) (by decide) (by decide)
  · rw [(C10_small_upload_date_panics ⟨false, "", "%zz", 0⟩).2 ("invalid URL escape") (by rfl)]
    rfl

/-- C10 counterexample to the claim as stated: `Upload_date` is a Go
`int`, and the item with `Upload_date = -1000000000 < 1000000000`
renders as the eleven-character `"-1000000000"`, so the slice is in
range and the function returns a filename instead of panicking. -/
theorem C10_counterexample :
    ((-1000000000 : Int) < 1000000000) ∧
    getMediaFilenameC ⟨false, "", "im.vsco.co/u/x.jpg", -1000000000⟩ =
      some (Except.ok ("-100000000.jpg")) := by
  exact ⟨by decide, by rfl⟩

theorem decodeWrapperList_error (pre post : List Json) (bad : Json) (e : String)
    (hbad : decodeMediaWrapper bad = Except.error e) :
    ∃ e2, decodeWrapperList (pre ++ bad :: post) = Except.error e2 := by
  induction pre with
  | nil =>
    refine ⟨e, ?_⟩
    simp only [List.nil_append, decodeWrapperList, hbad]
  | cons x pre ih =>
    obtain ⟨e2, he2⟩ := ih
    cases hx : decodeMediaWrapper x with
    | error ex =>
      refine ⟨ex, ?_⟩
      simp only [List.cons_append, decodeWrapperList, hx]
    | ok w =>
      refine ⟨e2, ?_⟩
      simp only [List.cons_append, decodeWrapperList, hx, List.append_eq, he2]

theorem decodeImageListC_mkPage_error (entries : List Json) (total : Int) (cursor : String)
    (he : ∃ e2, decodeWrapperList entries = Except.error e2) :
    ∃ e3, decodeImageListC (mkPageJson entries total cursor) = Except.error e3 := by
  obtain ⟨e2, he2⟩ := he
  refine ⟨e2, ?_⟩
  have hget : getField [(("media"), Json.arr entries), (("total"), Json.num total),
      (("next_cursor"), Json.str cursor)] ("media") = some (Json.arr entries) := rfl
  simp only [mkPageJson, decodeImageListC, decodeMediaArray, hget, he2]

/-- C1 (corrected, amended part): per-entry decode failure is *not*
isolated.  Whenever one entry of a page's `media` array fails to decode
(in particular when its `type` discriminator names a payload key absent
from the entry's object), the decode of the whole `[]MediaWrapper`
aborts with that error, and the catalog fetch consuming that page
returns an error instead of the page's remaining successfully decodable
items. -/
theorem C1_entry_failure_aborts_fetch (pre post : List Json) (bad : Json) (e : String)
    (total : Int) (cursor : String) (rest : List PageC)
    (hbad : decodeMediaWrapper bad = Except.error e) :
    isErr (decodeWrapperList (pre ++ bad :: post)) = true ∧
    isErr (fetchImageListC
      (⟨Except.ok (mkPageJson (pre ++ bad :: post) total cursor)⟩ :: rest)) = true := by
  obtain ⟨e2, he2⟩ := decodeWrapperList_error pre post bad e hbad
  constructor
  · rw [he2]
    rfl
  · obtain ⟨e3, he3⟩ := decodeImageListC_mkPage_error (pre ++ bad :: post) total cursor ⟨e2, he2⟩
    simp only [fetchImageListC, he3]
    rfl

/-- C1 counterexample to the claim as stated: a page holding one
perfectly decodable entry and one entry whose `type` (`"image"`) names
an absent payload key.  The good entry decodes on its own, yet the fetch
of this single page returns the bad entry's decode error — it does not
return the remaining successfully decoded item. -/
theorem C1_counterexample :
    decodeMediaWrapper (Json.obj [(("type"), Json.str ("image")),
      (("image"), Json.obj [(("is_video"), Json.bool false),
        (("responsive_url"), Json.str ("im.vsco.co/u/x.jpg")),
        (("upload_date"), Json.num 1638316221000)])]) =
      Except.ok (("image"), ⟨false, "", "im.vsco.co/u/x.jpg", 1638316221000⟩) ∧
    fetchImageListC [⟨Except.ok (mkPageJson
      [Json.obj [(("type"), Json.str ("image")),
        (("image"), Json.obj [(("is_video"), Json.bool false),
          (("responsive_url"), Json.str ("im.vsco.co/u/x.jpg")),
          (("upload_date"), Json.num 1638316221000)])],
       Json.obj [(("type"), Json.str ("image"))]] 2 (""))⟩] =
      Except.error ("Missing key matching media type: image") := by
  exact ⟨rfl, rfl⟩

/-- C1 witness: the amended theorem at a concrete page with one good and
one bad entry. -/
theorem C1_abort_witness :
    isErr (fetchImageListC [⟨Except.ok (mkPageJson
      ([Json.obj [(("type"), Json.str ("image")),
          (("image"), Json.obj [])]] ++ Json.obj [(("type"), Json.str ("image"))] :: [])
      2 (""))⟩]) = true :=
  (C1_entry_failure_aborts_fetch
    [Json.obj [(("type"), Json.str ("image")), (("image"), Json.obj [])]]
    [] (Json.obj [(("type"), Json.str ("image"))])
    ("Missing key matching media type: image") 2 ("") [] (by rfl)).2
